import Mathlib

/-!
Shallow embedding of the chat and post-like subsystem of the able_backe
repository (src/api/models.py, src/api/serializers.py, src/api/views.py).

Accounts are opaque ids (Nat).  The database state carries the rows of the
Chat, Message, Post and PostLike tables together with the id counters and a
logical clock standing for wall-clock time (Django timestamps).  Each view
function is embedded as a state transformer returning a result together with
the successor state; an error leaves the state unchanged, matching Django
semantics where get_object_or_404 or serializer validation aborts the
request before any write happens.
-/

namespace Able

/-- Error kinds of the HTTP layer: 404, 403 and 400 respectively. -/
inductive Err where
  | notFound
  | forbidden
  | invalidArgument
  deriving DecidableEq

/-- Row of the Chat table (models.py, class Chat): a many-to-many participant
list, two auto timestamps and a soft-delete flag. -/
structure Chat where
  id : Nat
  participants : List Nat
  createdAt : Nat
  updatedAt : Nat
  isActive : Bool
  deriving DecidableEq

/-- Row of the Message table (models.py, class Message): foreign key to the
chat, a sender, free-text content, a creation timestamp and the read flag
(default false). -/
structure Message where
  id : Nat
  chatId : Nat
  senderId : Nat
  content : String
  createdAt : Nat
  isRead : Bool
  deriving DecidableEq

/-- Row of the Post table (models.py, class Post), restricted to the fields
the like endpoint touches.  likes_count is a PositiveIntegerField; it is
modelled as an integer so that the clamping in toggle_like is visible. -/
structure Post where
  id : Nat
  likesCount : Int
  isActive : Bool
  deriving DecidableEq

/-- The persistent store: user ids, the four tables, the id sequences and
the current time. -/
structure DB where
  users : List Nat
  chats : List Chat
  messages : List Message
  posts : List Post
  likes : List (Nat × Nat)
  nextChatId : Nat
  nextMsgId : Nat
  now : Nat
  deriving DecidableEq

/-- The existing-chat filter of create_or_get_chat (views.py lines 318-324):
chats containing both users whose participant count is exactly two. -/
def chatMatches (a b : Nat) (c : Chat) : Bool :=
  c.participants.contains a && c.participants.contains b && c.participants.length == 2

/-- Model of queryset .first() under the Chat Meta ordering -updated_at:
the row with the greatest updated_at, the earliest row on ties. -/
def qfirst : List Chat → Option Chat
  | [] => none
  | c :: cs =>
    match qfirst cs with
    | none => some c
    | some d => if d.updatedAt > c.updatedAt then some d else some c

/-- The chat row inserted by the create branch of create_or_get_chat
(views.py lines 331-332): a fresh active chat whose participant set is
filled by the many-to-many add of requester and other user; the add
deduplicates, so a call with requester = otherId yields a
single-participant chat. -/
def newChat (requester otherId : Nat) (st : DB) : Chat :=
  { id := st.nextChatId,
    participants := if requester = otherId then [requester] else [requester, otherId],
    createdAt := st.now, updatedAt := st.now, isActive := true }

/-- create_or_get_chat (views.py lines 307-335).  The requester is the
authenticated user; otherId comes from the request body.  Looks up the
target user (404 if absent), then searches for an existing chat with the
two users and exactly two participants; if none is found a fresh chat is
created and both users are added to its participant set. -/
def createOrGetChat (requester otherId : Nat) (st : DB) : Except Err Nat × DB :=
  if st.users.contains otherId then
    match qfirst (st.chats.filter (chatMatches requester otherId)) with
    | some c => (.ok c.id, st)
    | none =>
      (.ok st.nextChatId,
        { st with chats := st.chats ++ [newChat requester otherId st],
                  nextChatId := st.nextChatId + 1, now := st.now + 1 })
  else (.error .notFound, st)

/-- The queryset filter of ChatListView and ChatDetailView (views.py lines
281-297): chats that contain the requesting user and are active. -/
def visibleTo (userId : Nat) (c : Chat) : Bool :=
  c.participants.contains userId && c.isActive

/-- ChatListView.get_queryset (views.py lines 281-285). -/
def chatList (viewer : Nat) (st : DB) : List Chat :=
  st.chats.filter (visibleTo viewer)

/-- The per-message effect of the bulk update in ChatDetailView.retrieve
(views.py line 302): messages of the chat that are unread and whose sender
is not the viewer get is_read set to true; every other row is untouched. -/
def markMsg (viewer chatId : Nat) (m : Message) : Message :=
  if m.chatId == chatId && !m.isRead && m.senderId != viewer then
    { m with isRead := true }
  else m

/-- ChatDetailView.retrieve (views.py lines 288-304): get_object over the
participant-and-active queryset (404 on miss), then the mark-read bulk
update, then the serialized message list of the chat. -/
def chatDetail (viewer chatId : Nat) (st : DB) : Except Err (List Message) × DB :=
  match st.chats.find? (fun c => c.id == chatId && visibleTo viewer c) with
  | none => (.error .notFound, st)
  | some _ =>
    (.ok ((st.messages.map (markMsg viewer chatId)).filter (fun m => m.chatId == chatId)),
      { st with messages := st.messages.map (markMsg viewer chatId) })

/-- MessageCreateView (views.py lines 338-351) together with the
MessageSerializer validation (serializers.py lines 199-206): content is a
required non-blank text field, so empty content is rejected with a 400
before perform_create runs; then get_object_or_404 over
(id, participants = sender, is_active = True) yields 404 on any miss; on
success a message with is_read false is inserted and chat.save() refreshes
the auto_now updated_at field.  newMessage is the inserted row. -/
def newMessage (senderId chatId : Nat) (content : String) (st : DB) : Message :=
  { id := st.nextMsgId, chatId := chatId, senderId := senderId,
    content := content, createdAt := st.now, isRead := false }

def send (senderId chatId : Nat) (content : String) (st : DB) : Except Err Message × DB :=
  if content = "" then (.error .invalidArgument, st)
  else
    match st.chats.find? (fun c => c.id == chatId && visibleTo senderId c) with
    | none => (.error .notFound, st)
    | some _ =>
      (.ok (newMessage senderId chatId content st),
        { st with
            messages := st.messages ++ [newMessage senderId chatId content st],
            chats := st.chats.map (fun d =>
              if d.id == chatId then { d with updatedAt := st.now } else d),
            nextMsgId := st.nextMsgId + 1,
            now := st.now + 1 })

/-- The messages of one chat, in table order (creation order, matching the
Message Meta ordering created_at). -/
def chatMessages (chatId : Nat) (st : DB) : List Message :=
  st.messages.filter (fun m => m.chatId == chatId)

/-- Model of queryset .last() under the Message Meta ordering created_at:
the row with the greatest created_at, the latest row on ties. -/
def mlast : List Message → Option Message
  | [] => none
  | m :: ms =>
    match mlast ms with
    | none => some m
    | some d => if m.createdAt > d.createdAt then some m else some d

/-- ChatSerializer.get_last_message (serializers.py lines 223-227). -/
def lastMessage (chatId : Nat) (st : DB) : Option Message :=
  mlast (chatMessages chatId st)

/-- The unread filter of ChatSerializer.get_unread_count (serializers.py
line 232): is_read false and sender other than the viewer. -/
def isUnreadFor (viewer : Nat) (m : Message) : Bool :=
  !m.isRead && m.senderId != viewer

/-- ChatSerializer.get_unread_count (serializers.py lines 229-233). -/
def unreadCount (viewer chatId : Nat) (st : DB) : Nat :=
  ((chatMessages chatId st).filter (isUnreadFor viewer)).length

/-- The summarize projection of the spec: the ChatSerializer pair of
last_message and unread_count.  A pure function of the state. -/
def summarize (viewer chatId : Nat) (st : DB) : Option Message × Nat :=
  (lastMessage chatId st, unreadCount viewer chatId st)

/-- toggle_like (views.py lines 110-126): 404 unless the post exists and is
active; then PostLike.objects.get_or_create either finds the (user, post)
row — in which case it is deleted and likes_count becomes
max(0, likes_count - 1) — or inserts it and likes_count is incremented. -/
def toggleLike (userId postId : Nat) (st : DB) : Except Err (Bool × Int) × DB :=
  match st.posts.find? (fun p => p.id == postId && p.isActive) with
  | none => (.error .notFound, st)
  | some post =>
    if (userId, postId) ∈ st.likes then
      (.ok (false, max 0 (post.likesCount - 1)),
        { st with
            likes := st.likes.erase (userId, postId),
            posts := st.posts.map (fun q =>
              if q.id == postId then { q with likesCount := max 0 (post.likesCount - 1) }
              else q) })
    else
      (.ok (true, post.likesCount + 1),
        { st with
            likes := st.likes ++ [(userId, postId)],
            posts := st.posts.map (fun q =>
              if q.id == postId then { q with likesCount := post.likesCount + 1 }
              else q) })

/-- The like-table invariant: no post counter is negative and the
(user, post) like rows are pairwise distinct (the unique_together
constraint of PostLike). -/
def likeInv (st : DB) : Prop :=
  (∀ p ∈ st.posts, 0 ≤ p.likesCount) ∧ st.likes.Nodup

/-! Auxiliary lemmas about the queryset models. -/

theorem qfirst_mem {l : List Chat} {c : Chat} (h : qfirst l = some c) : c ∈ l := by
  induction l with
  | nil => simp [qfirst] at h
  | cons a l ih =>
    rw [qfirst] at h
    cases hq : qfirst l with
    | none =>
      rw [hq] at h
      dsimp only at h
      simp only [Option.some.injEq] at h
      subst h
      exact List.mem_cons_self _ _
    | some d =>
      rw [hq] at h
      dsimp only at h
      by_cases hlt : d.updatedAt > a.updatedAt
      · rw [if_pos hlt] at h
        simp only [Option.some.injEq] at h
        subst h
        exact List.mem_cons_of_mem a (ih hq)
      · rw [if_neg hlt] at h
        simp only [Option.some.injEq] at h
        subst h
        exact List.mem_cons_self _ _

theorem qfirst_isSome (a : Chat) (l : List Chat) : (qfirst (a :: l)).isSome = true := by
  simp only [qfirst]
  cases h : qfirst l with
  | none => rfl
  | some d =>
    by_cases hlt : d.updatedAt > a.updatedAt
    · simp [hlt]
    · simp [hlt]

theorem qfirst_none_nil {l : List Chat} (h : qfirst l = none) : l = [] := by
  cases l with
  | nil => rfl
  | cons a l =>
    have hs := qfirst_isSome a l
    rw [h] at hs
    simp at hs

theorem qfirst_singleton (c : Chat) : qfirst [c] = some c := rfl

theorem chatMatches_comm (a b : Nat) (c : Chat) :
    chatMatches a b c = chatMatches b a c := by
  unfold chatMatches
  cases c.participants.contains a <;> cases c.participants.contains b <;> simp

theorem chatMatches_mem_iff {a b : Nat} {c : Chat} (hab : a ≠ b)
    (h : chatMatches a b c = true) : ∀ u, u ∈ c.participants ↔ u = a ∨ u = b := by
  unfold chatMatches at h
  simp only [Bool.and_eq_true, List.elem_eq_mem, decide_eq_true_eq, beq_iff_eq] at h
  obtain ⟨⟨ha, hb⟩, hlen⟩ := h
  obtain ⟨x, y, hxy⟩ := List.length_eq_two.mp hlen
  rw [hxy] at ha hb
  intro u
  rw [hxy]
  simp only [List.mem_cons, List.not_mem_nil, or_false] at ha hb ⊢
  rcases ha with ha | ha <;> rcases hb with hb | hb
  · exact absurd (ha.trans hb.symm) hab
  · subst ha; subst hb; tauto
  · subst ha; subst hb; tauto
  · exact absurd (ha.trans hb.symm) hab

theorem chatMatches_newChat {a b : Nat} (hab : a ≠ b) (st : DB) :
    chatMatches a b (newChat a b st) = true := by
  simp [chatMatches, newChat, if_neg hab]

theorem createOrGetChat_found (a b : Nat) (st : DB) (c : Chat)
    (hb : st.users.contains b = true)
    (hq : qfirst (st.chats.filter (chatMatches a b)) = some c) :
    createOrGetChat a b st = (.ok c.id, st) := by
  unfold createOrGetChat
  rw [if_pos hb, hq]

theorem createOrGetChat_create (a b : Nat) (st : DB)
    (hb : st.users.contains b = true)
    (hq : qfirst (st.chats.filter (chatMatches a b)) = none) :
    createOrGetChat a b st =
      (.ok st.nextChatId,
        { st with chats := st.chats ++ [newChat a b st],
                  nextChatId := st.nextChatId + 1, now := st.now + 1 }) := by
  unfold createOrGetChat
  rw [if_pos hb, hq]

theorem filter_chatMatches_comm (a b : Nat) (l : List Chat) :
    l.filter (chatMatches b a) = l.filter (chatMatches a b) := by
  apply List.filter_congr
  intro c _
  exact chatMatches_comm b a c

/-- After the create branch ran from a state with no matching chat, the
match filter on the successor state selects exactly the new chat. -/
theorem filter_after_create {a b : Nat} {st : DB} (hab : a ≠ b)
    (hq : qfirst (st.chats.filter (chatMatches a b)) = none) :
    (st.chats ++ [newChat a b st]).filter (chatMatches a b) = [newChat a b st] := by
  have hnil : st.chats.filter (chatMatches a b) = [] := qfirst_none_nil hq
  rw [List.filter_append, hnil]
  simp [chatMatches_newChat hab]

/-- Claim C1 (amended: the existing-chat lookup of create_or_get_chat does
not restrict itself to active conversations — views.py lines 318-324 filter
only on the participants — so the search is over all conversations of the
pair).  For distinct existing accounts A and B the call returns a
conversation whose participant set is exactly {A, B}, creating one exactly
when none matches, and a second call with the same pair returns the same
conversation id and leaves the state unchanged, so no duplicate
conversation is ever created for the pair. -/
theorem c1_get_or_create_dedup (A B : Nat) (st : DB)
    (hAB : A ≠ B) (hB : B ∈ st.users) :
    ∃ cid st1,
      createOrGetChat A B st = (.ok cid, st1) ∧
      (∃ c ∈ st1.chats, c.id = cid ∧ ∀ u, u ∈ c.participants ↔ (u = A ∨ u = B)) ∧
      createOrGetChat A B st1 = (.ok cid, st1) := by
  have hBc : st.users.contains B = true := List.elem_eq_true_of_mem hB
  cases hq : qfirst (st.chats.filter (chatMatches A B)) with
  | some c =>
    have hfound := createOrGetChat_found A B st c hBc hq
    refine ⟨c.id, st, hfound, ⟨c, ?_, rfl, ?_⟩, hfound⟩
    · exact List.mem_of_mem_filter (qfirst_mem hq)
    · exact chatMatches_mem_iff hAB (List.of_mem_filter (qfirst_mem hq))
  | none =>
    refine ⟨st.nextChatId,
      { st with chats := st.chats ++ [newChat A B st],
                nextChatId := st.nextChatId + 1, now := st.now + 1 },
      createOrGetChat_create A B st hBc hq, ⟨newChat A B st, ?_, rfl, ?_⟩, ?_⟩
    · simp
    · intro u
      simp [newChat, if_neg hAB]
    · have hq1 : qfirst ((st.chats ++ [newChat A B st]).filter (chatMatches A B)) =
          some (newChat A B st) := by
        rw [filter_after_create hAB hq]
        rfl
      exact createOrGetChat_found A B
        { st with chats := st.chats ++ [newChat A B st],
                  nextChatId := st.nextChatId + 1, now := st.now + 1 }
        (newChat A B st) hBc hq1

/-- Claim C1, counterexample to the claim as stated: in a state whose only
conversation between accounts 1 and 2 is inactive, no active conversation
with participant set {1, 2} exists, yet create_or_get_chat creates nothing
(the chat table keeps length one) and returns the inactive conversation,
because its lookup ignores the is_active flag. -/
theorem c1_counterexample :
    (∀ c ∈ (DB.mk [1, 2] [⟨0, [1, 2], 0, 0, false⟩] [] [] [] 1 0 1).chats,
        ¬(c.isActive = true ∧ 1 ∈ c.participants ∧ 2 ∈ c.participants)) ∧
    (createOrGetChat 1 2 (DB.mk [1, 2] [⟨0, [1, 2], 0, 0, false⟩] [] [] [] 1 0 1)).2.chats.length = 1 ∧
    (createOrGetChat 1 2 (DB.mk [1, 2] [⟨0, [1, 2], 0, 0, false⟩] [] [] [] 1 0 1)).1 = .ok 0 := by
  refine ⟨by decide, rfl, rfl⟩

/-- Claim C1, witness: instantiating the theorem at accounts 1 and 2 in a
two-user state with an empty chat table. -/
theorem c1_witness :
    ∃ cid st1,
      createOrGetChat 1 2 (DB.mk [1, 2] [] [] [] [] 0 0 0) = (.ok cid, st1) ∧
      (∃ c ∈ st1.chats, c.id = cid ∧ ∀ u, u ∈ c.participants ↔ (u = 1 ∨ u = 2)) ∧
      createOrGetChat 1 2 st1 = (.ok cid, st1) :=
  c1_get_or_create_dedup 1 2 (DB.mk [1, 2] [] [] [] [] 0 0 0) (by decide) (by decide)

/-- Claim C7: the existing-chat lookup is symmetric in the two accounts, so
create_or_get_chat treats the pair as unordered: on the same state the two
orders return the same conversation id, and calling with the swapped pair
right after a call returns the same conversation id again without touching
the state. -/
theorem c7_get_or_create_unordered (A B : Nat) (st : DB)
    (hAB : A ≠ B) (hA : A ∈ st.users) (hB : B ∈ st.users) :
    ∃ cid st1,
      createOrGetChat A B st = (.ok cid, st1) ∧
      createOrGetChat B A st1 = (.ok cid, st1) ∧
      (createOrGetChat B A st).1 = .ok cid := by
  have hBc : st.users.contains B = true := List.elem_eq_true_of_mem hB
  have hAc : st.users.contains A = true := List.elem_eq_true_of_mem hA
  cases hq : qfirst (st.chats.filter (chatMatches A B)) with
  | some c =>
    have hq' : qfirst (st.chats.filter (chatMatches B A)) = some c := by
      rw [filter_chatMatches_comm A B]
      exact hq
    exact ⟨c.id, st, createOrGetChat_found A B st c hBc hq,
      createOrGetChat_found B A st c hAc hq',
      by rw [createOrGetChat_found B A st c hAc hq']⟩
  | none =>
    have hq' : qfirst (st.chats.filter (chatMatches B A)) = none := by
      rw [filter_chatMatches_comm A B]
      exact hq
    refine ⟨st.nextChatId,
      { st with chats := st.chats ++ [newChat A B st],
                nextChatId := st.nextChatId + 1, now := st.now + 1 },
      createOrGetChat_create A B st hBc hq, ?_, ?_⟩
    · have hq1 : qfirst ((st.chats ++ [newChat A B st]).filter (chatMatches B A)) =
          some (newChat A B st) := by
        rw [filter_chatMatches_comm A B, filter_after_create hAB hq]
        rfl
      exact createOrGetChat_found B A
        { st with chats := st.chats ++ [newChat A B st],
                  nextChatId := st.nextChatId + 1, now := st.now + 1 }
        (newChat A B st) hAc hq1
    · rw [createOrGetChat_create B A st hAc hq']

/-- Claim C7, witness: instantiating the theorem at accounts 1 and 2 in a
two-user state with an empty chat table. -/
theorem c7_witness :
    ∃ cid st1,
      createOrGetChat 1 2 (DB.mk [1, 2] [] [] [] [] 0 0 0) = (.ok cid, st1) ∧
      createOrGetChat 2 1 st1 = (.ok cid, st1) ∧
      (createOrGetChat 2 1 (DB.mk [1, 2] [] [] [] [] 0 0 0)).1 = .ok cid :=
  c7_get_or_create_unordered 1 2 (DB.mk [1, 2] [] [] [] [] 0 0 0)
    (by decide) (by decide) (by decide)

/-- Claim C3, evaluation at the failing input: account 1 calls
create_or_get_chat with its own id on a state with no conversations.  The
view performs no equal-id check (views.py lines 309-315 only require the
target user to exist), so instead of failing with InvalidArgument it
succeeds and inserts a degenerate single-participant conversation — the
many-to-many add of the same user twice deduplicates — making a
self-conversation a reachable state. -/
theorem c3_self_chat_reachable :
    (createOrGetChat 1 1 (DB.mk [1] [] [] [] [] 0 0 0)).1 = .ok 0 ∧
    (createOrGetChat 1 1 (DB.mk [1] [] [] [] [] 0 0 0)).2.chats =
      [{ id := 0, participants := [1], createdAt := 0, updatedAt := 0, isActive := true }] :=
  ⟨rfl, rfl⟩

/-- Claim C2 (amended: a sender who is not a participant is rejected with
NotFound rather than Forbidden, because MessageCreateView.perform_create
reaches the chat through get_object_or_404 filtered on
(id, participants = sender, is_active = True), so non-membership,
inactivity and absence all collapse into the same 404 and are not
distinguished).  Whenever the content is non-empty and no chat row has the
given id with the sender as participant and the active flag set, send
fails with NotFound and leaves the state unchanged. -/
theorem c2_send_not_found (senderId chatId : Nat) (content : String) (st : DB)
    (hc : content ≠ "")
    (h : ∀ c ∈ st.chats, ¬(c.id = chatId ∧ senderId ∈ c.participants ∧ c.isActive = true)) :
    send senderId chatId content st = (.error .notFound, st) := by
  unfold send
  rw [if_neg hc]
  have hfind : st.chats.find? (fun c => c.id == chatId && visibleTo senderId c) = none := by
    rw [List.find?_eq_none]
    intro c hmem hcond
    apply h c hmem
    simp only [visibleTo, Bool.and_eq_true, beq_iff_eq, List.elem_eq_mem,
      decide_eq_true_eq] at hcond
    exact ⟨hcond.1, hcond.2.1, hcond.2.2⟩
  rw [hfind]

/-- Claim C2, counterexample to the claim as stated: account 3 is not a
participant of the single active chat of accounts 1 and 2, yet sending into
that chat fails with NotFound, not with the Forbidden the claim promises,
so the participant error is not distinguished from the missing-chat
error. -/
theorem c2_counterexample :
    ((3 : Nat) ∈ (Chat.mk 0 [1, 2] 0 0 true).participants → False) ∧
    (Chat.mk 0 [1, 2] 0 0 true).isActive = true ∧
    (send 3 0 "x" (DB.mk [1, 2, 3] [Chat.mk 0 [1, 2] 0 0 true] [] [] [] 1 0 1)).1 =
      .error .notFound ∧
    Err.notFound ≠ Err.forbidden :=
  ⟨by decide, rfl, rfl, by decide⟩

/-- Claim C2, witness: the amended theorem applied to a non-participant
sender of an active chat. -/
theorem c2_witness :
    send 3 0 "x" (DB.mk [1, 2, 3] [Chat.mk 0 [1, 2] 0 0 true] [] [] [] 1 0 1) =
      (.error .notFound, DB.mk [1, 2, 3] [Chat.mk 0 [1, 2] 0 0 true] [] [] [] 1 0 1) :=
  c2_send_not_found 3 0 "x" (DB.mk [1, 2, 3] [Chat.mk 0 [1, 2] 0 0 true] [] [] [] 1 0 1)
    (by decide) (by decide)

/-- Claim C8: the MessageSerializer declares content as a required
non-blank field, so a send with empty content is rejected with
InvalidArgument before anything is written, and every message in the store
after any send either predates the call or carries the non-empty content of
the call: a message is only ever created with non-empty content. -/
theorem c8_empty_content_rejected (senderId chatId : Nat) (content : String) (st : DB) :
    (content = "" → send senderId chatId content st = (.error .invalidArgument, st)) ∧
    (∀ m ∈ (send senderId chatId content st).2.messages,
      m ∈ st.messages ∨ m.content ≠ "") := by
  constructor
  · intro h
    unfold send
    rw [if_pos h]
  · intro m hm
    by_cases hc : content = ""
    · unfold send at hm
      rw [if_pos hc] at hm
      exact .inl hm
    · unfold send at hm
      rw [if_neg hc] at hm
      cases hfind : st.chats.find? (fun c => c.id == chatId && visibleTo senderId c) with
      | none =>
        rw [hfind] at hm
        exact .inl hm
      | some c =>
        rw [hfind] at hm
        dsimp only at hm
        rcases List.mem_append.mp hm with h1 | h1
        · exact .inl h1
        · right
          rw [List.mem_singleton] at h1
          subst h1
          exact hc

/-- Claim C8, witness: a send with empty content into an empty store is
rejected with InvalidArgument and changes nothing. -/
theorem c8_witness :
    send 1 0 "" (DB.mk [1] [] [] [] [] 0 0 0) =
      (.error .invalidArgument, DB.mk [1] [] [] [] [] 0 0 0) :=
  (c8_empty_content_rejected 1 0 "" (DB.mk [1] [] [] [] [] 0 0 0)).1 rfl

/-- Claim C9: the chat list only exposes chats that are active and contain
the requesting user, and the chat detail view fails with NotFound — leaving
the state, in particular every read flag, unchanged — whenever no chat row
has the requested id with the requester as participant and the active flag
set. -/
theorem c9_visibility (viewer chatId : Nat) (st : DB) :
    (∀ c ∈ chatList viewer st,
        c ∈ st.chats ∧ c.isActive = true ∧ viewer ∈ c.participants) ∧
    ((∀ c ∈ st.chats, ¬(c.id = chatId ∧ viewer ∈ c.participants ∧ c.isActive = true)) →
      chatDetail viewer chatId st = (.error .notFound, st)) := by
  constructor
  · intro c hc
    have h1 : c ∈ st.chats := List.mem_of_mem_filter hc
    have h2 := List.of_mem_filter hc
    simp only [visibleTo, Bool.and_eq_true, List.elem_eq_mem, decide_eq_true_eq] at h2
    exact ⟨h1, h2.2, h2.1⟩
  · intro h
    unfold chatDetail
    have hfind : st.chats.find? (fun c => c.id == chatId && visibleTo viewer c) = none := by
      rw [List.find?_eq_none]
      intro c hmem hcond
      apply h c hmem
      simp only [visibleTo, Bool.and_eq_true, beq_iff_eq, List.elem_eq_mem,
        decide_eq_true_eq] at hcond
      exact ⟨hcond.1, hcond.2.1, hcond.2.2⟩
    rw [hfind]

/-- Claim C9, witness: the theorem applied to a non-participant requester
of the single active chat; the detail view answers NotFound and the state
is untouched. -/
theorem c9_witness :
    chatDetail 3 0 (DB.mk [1, 2, 3] [Chat.mk 0 [1, 2] 0 0 true] [] [] [] 1 0 1) =
      (.error .notFound, DB.mk [1, 2, 3] [Chat.mk 0 [1, 2] 0 0 true] [] [] [] 1 0 1) :=
  (c9_visibility 3 0 (DB.mk [1, 2, 3] [Chat.mk 0 [1, 2] 0 0 true] [] [] [] 1 0 1)).2
    (by decide)

/-! Lemmas about the mark-read update. -/

theorem markMsg_eq_of (viewer chatId : Nat) (m : Message)
    (h1 : m.chatId = chatId) (h2 : m.isRead = false) (h3 : m.senderId ≠ viewer) :
    markMsg viewer chatId m = { m with isRead := true } := by
  unfold markMsg
  rw [if_pos]
  simp [h1, h2, h3]

theorem markMsg_eq_self (viewer chatId : Nat) (m : Message)
    (h : ¬(m.chatId = chatId ∧ m.isRead = false ∧ m.senderId ≠ viewer)) :
    markMsg viewer chatId m = m := by
  unfold markMsg
  rw [if_neg]
  simp only [Bool.and_eq_true, beq_iff_eq, Bool.not_eq_true', bne_iff_ne, ne_eq]
  tauto

theorem markMsg_idem (viewer chatId : Nat) (m : Message) :
    markMsg viewer chatId (markMsg viewer chatId m) = markMsg viewer chatId m := by
  by_cases h : m.chatId = chatId ∧ m.isRead = false ∧ m.senderId ≠ viewer
  · rw [markMsg_eq_of viewer chatId m h.1 h.2.1 h.2.2]
    apply markMsg_eq_self
    simp
  · rw [markMsg_eq_self viewer chatId m h, markMsg_eq_self viewer chatId m h]

theorem markMsg_not_unread (viewer chatId : Nat) (m : Message)
    (h1 : ((markMsg viewer chatId m).chatId == chatId) = true)
    (h2 : isUnreadFor viewer (markMsg viewer chatId m) = true) : False := by
  by_cases h : m.chatId = chatId ∧ m.isRead = false ∧ m.senderId ≠ viewer
  · rw [markMsg_eq_of viewer chatId m h.1 h.2.1 h.2.2] at h2
    simp [isUnreadFor] at h2
  · rw [markMsg_eq_self viewer chatId m h] at h1 h2
    simp only [beq_iff_eq] at h1
    simp only [isUnreadFor, Bool.and_eq_true, Bool.not_eq_true', bne_iff_ne, ne_eq] at h2
    exact h ⟨h1, h2.1, h2.2⟩

theorem unreadCount_after_mark (viewer chatId : Nat) (st : DB) :
    unreadCount viewer chatId { st with messages := st.messages.map (markMsg viewer chatId) } = 0 := by
  unfold unreadCount chatMessages
  rw [List.length_eq_zero, List.filter_eq_nil_iff]
  intro m hm
  have hm1 : m ∈ st.messages.map (markMsg viewer chatId) := List.mem_of_mem_filter hm
  have hm2 := List.of_mem_filter hm
  obtain ⟨m0, _, rfl⟩ := List.mem_map.mp hm1
  intro hun
  exact markMsg_not_unread viewer chatId m0 hm2 hun

theorem find?_visible_isSome {viewer chatId : Nat} {st : DB}
    (h : ∃ c ∈ st.chats, c.id = chatId ∧ viewer ∈ c.participants ∧ c.isActive = true) :
    ∃ c, st.chats.find? (fun c => c.id == chatId && visibleTo viewer c) = some c := by
  obtain ⟨c, hc, h1, h2, h3⟩ := h
  cases hfind : st.chats.find? (fun c => c.id == chatId && visibleTo viewer c) with
  | some d => exact ⟨d, rfl⟩
  | none =>
    exfalso
    apply List.find?_eq_none.mp hfind c hc
    simp [visibleTo, h1, h2, h3, List.elem_eq_mem]

/-- Claim C4: on a chat that is visible to the viewer (the viewer is a
participant and the chat is active), the detail view sets is_read to true
on exactly the messages of that chat that were unread and sent by someone
else — each such message reappears with the flag set, every other message
survives untouched — the operation is idempotent (a second invocation
returns the same payload and the identical state), and afterwards the
unread count of the viewer for that chat is zero. -/
theorem c4_mark_read_idempotent (viewer chatId : Nat) (st : DB)
    (h : ∃ c ∈ st.chats, c.id = chatId ∧ viewer ∈ c.participants ∧ c.isActive = true) :
    ∃ msgs st1,
      chatDetail viewer chatId st = (.ok msgs, st1) ∧
      st1.messages = st.messages.map (markMsg viewer chatId) ∧
      (∀ m ∈ st.messages,
        (m.chatId = chatId ∧ m.isRead = false ∧ m.senderId ≠ viewer →
          { m with isRead := true } ∈ st1.messages) ∧
        (¬(m.chatId = chatId ∧ m.isRead = false ∧ m.senderId ≠ viewer) →
          m ∈ st1.messages)) ∧
      chatDetail viewer chatId st1 = (.ok msgs, st1) ∧
      unreadCount viewer chatId st1 = 0 := by
  obtain ⟨c, hfind⟩ := find?_visible_isSome h
  have hmap2 : (st.messages.map (markMsg viewer chatId)).map (markMsg viewer chatId) =
      st.messages.map (markMsg viewer chatId) := by
    rw [List.map_map]
    apply List.map_congr_left
    intro m _
    exact markMsg_idem viewer chatId m
  refine ⟨(st.messages.map (markMsg viewer chatId)).filter (fun m => m.chatId == chatId),
    { st with messages := st.messages.map (markMsg viewer chatId) }, ?_, rfl, ?_, ?_, ?_⟩
  · unfold chatDetail
    rw [hfind]
  · intro m hm
    constructor
    · intro hcond
      rw [← markMsg_eq_of viewer chatId m hcond.1 hcond.2.1 hcond.2.2]
      exact List.mem_map_of_mem _ hm
    · intro hcond
      rw [← markMsg_eq_self viewer chatId m hcond]
      exact List.mem_map_of_mem _ hm
  · unfold chatDetail
    rw [hfind]
    simp only [hmap2]
  · exact unreadCount_after_mark viewer chatId st

/-- Claim C4, witness: viewer 1 opens chat 0, which holds one unread
message from account 2; the theorem is instantiated there. -/
theorem c4_witness :
    ∃ msgs st1,
      chatDetail 1 0 (DB.mk [1, 2] [Chat.mk 0 [1, 2] 0 0 true]
          [Message.mk 0 0 2 "hello" 1 false] [] [] 1 1 2) = (.ok msgs, st1) ∧
      st1.messages = (DB.mk [1, 2] [Chat.mk 0 [1, 2] 0 0 true]
          [Message.mk 0 0 2 "hello" 1 false] [] [] 1 1 2).messages.map (markMsg 1 0) ∧
      (∀ m ∈ (DB.mk [1, 2] [Chat.mk 0 [1, 2] 0 0 true]
          [Message.mk 0 0 2 "hello" 1 false] [] [] 1 1 2).messages,
        (m.chatId = 0 ∧ m.isRead = false ∧ m.senderId ≠ 1 →
          { m with isRead := true } ∈ st1.messages) ∧
        (¬(m.chatId = 0 ∧ m.isRead = false ∧ m.senderId ≠ 1) → m ∈ st1.messages)) ∧
      chatDetail 1 0 st1 = (.ok msgs, st1) ∧
      unreadCount 1 0 st1 = 0 :=
  c4_mark_read_idempotent 1 0 (DB.mk [1, 2] [Chat.mk 0 [1, 2] 0 0 true]
    [Message.mk 0 0 2 "hello" 1 false] [] [] 1 1 2) (by decide)

/-! Lemmas about the last-message projection. -/

theorem mlast_none_nil {l : List Message} (h : mlast l = none) : l = [] := by
  cases l with
  | nil => rfl
  | cons a l =>
    exfalso
    rw [mlast] at h
    cases hq : mlast l with
    | none => rw [hq] at h; simp at h
    | some d =>
      rw [hq] at h
      dsimp only at h
      by_cases hlt : a.createdAt > d.createdAt
      · rw [if_pos hlt] at h; simp at h
      · rw [if_neg hlt] at h; simp at h

theorem mlast_mem {l : List Message} {m : Message} (h : mlast l = some m) : m ∈ l := by
  induction l with
  | nil => simp [mlast] at h
  | cons a l ih =>
    rw [mlast] at h
    cases hq : mlast l with
    | none =>
      rw [hq] at h
      dsimp only at h
      simp only [Option.some.injEq] at h
      subst h
      exact List.mem_cons_self _ _
    | some d =>
      rw [hq] at h
      dsimp only at h
      by_cases hlt : a.createdAt > d.createdAt
      · rw [if_pos hlt] at h
        simp only [Option.some.injEq] at h
        subst h
        exact List.mem_cons_self _ _
      · rw [if_neg hlt] at h
        simp only [Option.some.injEq] at h
        subst h
        exact List.mem_cons_of_mem a (ih hq)

theorem mlast_max {l : List Message} :
    ∀ {m : Message}, mlast l = some m → ∀ mm ∈ l, mm.createdAt ≤ m.createdAt := by
  induction l with
  | nil => intro m h; simp [mlast] at h
  | cons a l ih =>
    intro m h
    rw [mlast] at h
    cases hq : mlast l with
    | none =>
      rw [hq] at h
      dsimp only at h
      simp only [Option.some.injEq] at h
      subst h
      rw [mlast_none_nil hq]
      intro mm hmm
      rw [List.mem_singleton] at hmm
      rw [hmm]
    | some d =>
      rw [hq] at h
      dsimp only at h
      by_cases hlt : a.createdAt > d.createdAt
      · rw [if_pos hlt] at h
        simp only [Option.some.injEq] at h
        subst h
        intro mm hmm
        rcases List.mem_cons.mp hmm with h1 | h1
        · rw [h1]
        · exact le_trans (ih hq mm h1) (le_of_lt hlt)
      · rw [if_neg hlt] at h
        simp only [Option.some.injEq] at h
        subst h
        intro mm hmm
        rcases List.mem_cons.mp hmm with h1 | h1
        · rw [h1]; exact Nat.le_of_not_lt hlt
        · exact ih hq mm h1

theorem mlast_append_new {l : List Message} {m : Message}
    (h : ∀ mm ∈ l, mm.createdAt < m.createdAt) : mlast (l ++ [m]) = some m := by
  induction l with
  | nil => rfl
  | cons a l ih =>
    have ih2 := ih (fun mm hmm => h mm (List.mem_cons_of_mem a hmm))
    rw [List.cons_append, mlast, ih2]
    dsimp only
    rw [if_neg (Nat.not_lt.mpr (Nat.le_of_lt (h a (List.mem_cons_self _ _))))]

/-- Claim C5: summarize is the pure pair of the ChatSerializer projections —
the most recent message of the conversation, none exactly when the
conversation has no message, together with the count of messages that are
unread and sent by someone other than the viewer — and after account A
sends the text hi into a chat it participates in whose stored messages all
predate the call, the other account B sees that message as the last one and
an unread count of at least one. -/
theorem c5_summarize_projection (A B chatId : Nat) (st : DB)
    (hts : ∀ m ∈ st.messages, m.createdAt < st.now)
    (hAB : A ≠ B)
    (h : ∃ c ∈ st.chats, c.id = chatId ∧ A ∈ c.participants ∧ c.isActive = true) :
    (summarize B chatId st =
        (lastMessage chatId st,
          ((chatMessages chatId st).filter (isUnreadFor B)).length) ∧
      (lastMessage chatId st = none ↔ chatMessages chatId st = []) ∧
      (∀ m, lastMessage chatId st = some m →
        m ∈ chatMessages chatId st ∧
        ∀ mm ∈ chatMessages chatId st, mm.createdAt ≤ m.createdAt)) ∧
    (∃ m st1,
      send A chatId "hi" st = (.ok m, st1) ∧
      lastMessage chatId st1 = some m ∧
      m.content = "hi" ∧
      1 ≤ unreadCount B chatId st1) := by
  obtain ⟨c, hfind⟩ := find?_visible_isSome h
  constructor
  · refine ⟨rfl, ⟨fun hn => mlast_none_nil hn, fun hn => by rw [lastMessage, hn]; rfl⟩, ?_⟩
    intro m hm
    exact ⟨mlast_mem hm, mlast_max hm⟩
  · refine ⟨newMessage A chatId "hi" st,
      { st with
          messages := st.messages ++ [newMessage A chatId "hi" st],
          chats := st.chats.map (fun d =>
            if d.id == chatId then { d with updatedAt := st.now } else d),
          nextMsgId := st.nextMsgId + 1,
          now := st.now + 1 }, ?_, ?_, rfl, ?_⟩
    · unfold send
      rw [if_neg (by decide : ¬("hi" : String) = ""), hfind]
    · unfold lastMessage chatMessages
      dsimp only
      rw [List.filter_append]
      have hnew : List.filter (fun m => m.chatId == chatId) [newMessage A chatId "hi" st] =
          [newMessage A chatId "hi" st] := by
        simp [newMessage]
      rw [hnew]
      apply mlast_append_new
      intro mm hmm
      exact hts mm (List.mem_of_mem_filter hmm)
    · unfold unreadCount chatMessages
      dsimp only
      rw [List.filter_append]
      have hnew : List.filter (fun m => m.chatId == chatId) [newMessage A chatId "hi" st] =
          [newMessage A chatId "hi" st] := by
        simp [newMessage]
      rw [hnew, List.filter_append]
      have hunread : List.filter (isUnreadFor B) [newMessage A chatId "hi" st] =
          [newMessage A chatId "hi" st] := by
        simp only [List.filter_eq_self, List.mem_singleton]
        intro a ha
        subst ha
        simp only [isUnreadFor, newMessage, Bool.not_false, Bool.true_and, bne_iff_ne, ne_eq]
        exact hAB
      rw [hunread, List.length_append, List.length_singleton]
      omega

/-- Claim C5, witness: account 1 sends into chat 0; account 2 then sees
unread count at least one and the new message as the last one. -/
theorem c5_witness :
    (summarize 2 0 (DB.mk [1, 2] [Chat.mk 0 [1, 2] 0 0 true] [] [] [] 1 0 1) =
        (lastMessage 0 (DB.mk [1, 2] [Chat.mk 0 [1, 2] 0 0 true] [] [] [] 1 0 1),
          ((chatMessages 0 (DB.mk [1, 2] [Chat.mk 0 [1, 2] 0 0 true] [] [] [] 1 0 1)).filter
            (isUnreadFor 2)).length) ∧
      (lastMessage 0 (DB.mk [1, 2] [Chat.mk 0 [1, 2] 0 0 true] [] [] [] 1 0 1) = none ↔
        chatMessages 0 (DB.mk [1, 2] [Chat.mk 0 [1, 2] 0 0 true] [] [] [] 1 0 1) = []) ∧
      (∀ m, lastMessage 0 (DB.mk [1, 2] [Chat.mk 0 [1, 2] 0 0 true] [] [] [] 1 0 1) = some m →
        m ∈ chatMessages 0 (DB.mk [1, 2] [Chat.mk 0 [1, 2] 0 0 true] [] [] [] 1 0 1) ∧
        ∀ mm ∈ chatMessages 0 (DB.mk [1, 2] [Chat.mk 0 [1, 2] 0 0 true] [] [] [] 1 0 1),
          mm.createdAt ≤ m.createdAt)) ∧
    (∃ m st1,
      send 1 0 "hi" (DB.mk [1, 2] [Chat.mk 0 [1, 2] 0 0 true] [] [] [] 1 0 1) = (.ok m, st1) ∧
      lastMessage 0 st1 = some m ∧
      m.content = "hi" ∧
      1 ≤ unreadCount 2 0 st1) :=
  c5_summarize_projection 1 2 0 (DB.mk [1, 2] [Chat.mk 0 [1, 2] 0 0 true] [] [] [] 1 0 1)
    (by decide) (by decide) (by decide)

/-- Claim C6: a valid send — non-empty content into an active chat the
sender participates in — appends exactly one message carrying that chat,
sender and content with is_read false and the current time, stamps the
chat row with the current time as its last activity, and modifies no other
chat and no other table. -/
theorem c6_send_effect (senderId chatId : Nat) (content : String) (st : DB)
    (hc : content ≠ "")
    (h : ∃ c ∈ st.chats, c.id = chatId ∧ senderId ∈ c.participants ∧ c.isActive = true) :
    ∃ m st1,
      send senderId chatId content st = (.ok m, st1) ∧
      m.isRead = false ∧ m.chatId = chatId ∧ m.senderId = senderId ∧
      m.content = content ∧ m.createdAt = st.now ∧
      st1.messages = st.messages ++ [m] ∧
      (∃ c ∈ st1.chats, c.id = chatId ∧ c.updatedAt = st.now) ∧
      (∀ c ∈ st.chats, c.id ≠ chatId → c ∈ st1.chats) ∧
      (∀ c ∈ st1.chats, c.id = chatId → c.updatedAt = st.now) ∧
      st1.users = st.users ∧ st1.posts = st.posts ∧ st1.likes = st.likes := by
  obtain ⟨c0, hfind⟩ := find?_visible_isSome h
  refine ⟨newMessage senderId chatId content st,
    { st with
        messages := st.messages ++ [newMessage senderId chatId content st],
        chats := st.chats.map (fun d =>
          if d.id == chatId then { d with updatedAt := st.now } else d),
        nextMsgId := st.nextMsgId + 1,
        now := st.now + 1 },
    ?_, rfl, rfl, rfl, rfl, rfl, rfl, ?_, ?_, ?_, rfl, rfl, rfl⟩
  · unfold send
    rw [if_neg hc, hfind]
  · obtain ⟨c, hcmem, h1, _, _⟩ := h
    refine ⟨{ c with updatedAt := st.now }, ?_, h1, rfl⟩
    have heq : (fun d => if d.id == chatId then { d with updatedAt := st.now } else d) c =
        { c with updatedAt := st.now } := by
      show (if c.id == chatId then { c with updatedAt := st.now } else c) =
        { c with updatedAt := st.now }
      rw [if_pos (beq_iff_eq.mpr h1)]
    rw [← heq]
    exact List.mem_map_of_mem _ hcmem
  · intro c hcmem hne
    have heq : (fun d => if d.id == chatId then { d with updatedAt := st.now } else d) c = c := by
      show (if c.id == chatId then { c with updatedAt := st.now } else c) = c
      rw [if_neg]
      simp only [beq_iff_eq]
      exact hne
    rw [← heq]
    exact List.mem_map_of_mem _ hcmem
  · intro c hcmem hid
    obtain ⟨d, hd, hmap⟩ := List.mem_map.mp hcmem
    by_cases hdc : d.id = chatId
    · rw [if_pos (beq_iff_eq.mpr hdc)] at hmap
      rw [← hmap]
    · rw [if_neg (by simp only [beq_iff_eq]; exact hdc)] at hmap
      rw [← hmap] at hid
      exact absurd hid hdc

/-- Claim C6, witness: account 1 sends the text hi into chat 0 of accounts
1 and 2. -/
theorem c6_witness :
    ∃ m st1,
      send 1 0 "hi" (DB.mk [1, 2] [Chat.mk 0 [1, 2] 0 0 true] [] [] [] 1 0 1) = (.ok m, st1) ∧
      m.isRead = false ∧ m.chatId = 0 ∧ m.senderId = 1 ∧
      m.content = "hi" ∧ m.createdAt = 1 ∧
      st1.messages = (DB.mk [1, 2] [Chat.mk 0 [1, 2] 0 0 true] [] [] [] 1 0 1).messages ++ [m] ∧
      (∃ c ∈ st1.chats, c.id = 0 ∧ c.updatedAt = 1) ∧
      (∀ c ∈ (DB.mk [1, 2] [Chat.mk 0 [1, 2] 0 0 true] [] [] [] 1 0 1).chats,
        c.id ≠ 0 → c ∈ st1.chats) ∧
      (∀ c ∈ st1.chats, c.id = 0 → c.updatedAt = 1) ∧
      st1.users = [1, 2] ∧ st1.posts = [] ∧ st1.likes = [] :=
  c6_send_effect 1 0 "hi" (DB.mk [1, 2] [Chat.mk 0 [1, 2] 0 0 true] [] [] [] 1 0 1)
    (by decide) (by decide)

theorem count_le_one_of_nodup (x : Nat × Nat) {l : List (Nat × Nat)} (h : l.Nodup) :
    l.count x ≤ 1 := by
  induction l with
  | nil => simp
  | cons a l ih =>
    rw [List.count_cons]
    rcases List.nodup_cons.mp h with ⟨hna, hnl⟩
    by_cases ha : x = a
    · subst ha
      have h0 : l.count x = 0 := List.count_eq_zero.mpr hna
      simp [h0]
    · have hb : (a == x) = false := beq_eq_false_iff_ne.mpr (Ne.symm ha)
      simp only [hb, if_false, Nat.add_zero]
      exact ih hnl

/-- Claim C10: from any state satisfying the like-table invariant, a
toggle_like call preserves it — every post counter stays non-negative,
since unliking sets the counter to max(0, count - 1) and liking increments
a non-negative counter — and each (user, post) pair keeps at most one like
row, since get_or_create inserts only when the row is absent and unliking
deletes it. -/
theorem c10_likes_invariant (userId postId : Nat) (st : DB) (h : likeInv st) :
    likeInv (toggleLike userId postId st).2 ∧
    (∀ p ∈ (toggleLike userId postId st).2.posts, 0 ≤ p.likesCount) ∧
    (∀ u q, ((toggleLike userId postId st).2.likes.count (u, q)) ≤ 1) := by
  obtain ⟨hpos, hnodup⟩ := h
  have main : likeInv (toggleLike userId postId st).2 := by
    unfold toggleLike
    cases hfind : st.posts.find? (fun p => p.id == postId && p.isActive) with
    | none => exact ⟨hpos, hnodup⟩
    | some post =>
      dsimp only
      by_cases hmem : (userId, postId) ∈ st.likes
      · rw [if_pos hmem]
        refine ⟨?_, hnodup.erase _⟩
        intro p hp
        obtain ⟨q, hq, hmap⟩ := List.mem_map.mp hp
        rw [← hmap]
        show 0 ≤ (if q.id == postId then
          { q with likesCount := max 0 (post.likesCount - 1) } else q).likesCount
        by_cases hid : (q.id == postId) = true
        · rw [if_pos hid]
          exact le_max_left 0 _
        · rw [if_neg hid]
          exact hpos q hq
      · rw [if_neg hmem]
        constructor
        · intro p hp
          obtain ⟨q, hq, hmap⟩ := List.mem_map.mp hp
          rw [← hmap]
          show 0 ≤ (if q.id == postId then
            { q with likesCount := post.likesCount + 1 } else q).likesCount
          by_cases hid : (q.id == postId) = true
          · rw [if_pos hid]
            have hp0 := hpos post (List.mem_of_find?_eq_some hfind)
            dsimp only
            omega
          · rw [if_neg hid]
            exact hpos q hq
        · rw [List.nodup_append]
          exact ⟨hnodup, List.nodup_singleton _, by
            intro x hx hx1
            rw [List.mem_singleton] at hx1
            subst hx1
            exact hmem hx⟩
  exact ⟨main, main.1, fun u q => count_le_one_of_nodup (u, q) main.2⟩

/-- Claim C10, witness: toggling a like on post 0 from a clean one-post
state keeps the invariant, the non-negative counters and the per-pair
bound. -/
theorem c10_witness :
    likeInv (toggleLike 1 0 (DB.mk [1] [] [] [Post.mk 0 0 true] [] 0 0 0)).2 ∧
    (∀ p ∈ (toggleLike 1 0 (DB.mk [1] [] [] [Post.mk 0 0 true] [] 0 0 0)).2.posts,
      0 ≤ p.likesCount) ∧
    (∀ u q,
      ((toggleLike 1 0 (DB.mk [1] [] [] [Post.mk 0 0 true] [] 0 0 0)).2.likes.count (u, q)) ≤ 1) :=
  c10_likes_invariant 1 0 (DB.mk [1] [] [] [Post.mk 0 0 true] [] 0 0 0)
    ⟨by decide, by decide⟩

end Able
